import Mathlib

/-!
Shallow embedding of the `ads_aggregator` repository (Python) in Lean 4.

Conventions of the embedding:
- Python `float` amounts (spend, ctr, cpc) are modelled as exact rationals `ℚ`;
  the `float('inf')` sentinel used by the rotator's cpc backfill is modelled by
  `⊤ : WithTop ℚ`.
- Python's built-in `round(x, 2)` (round-half-to-even) is modelled by
  `round2` below, round-half-to-even on `ℚ`.
- Python dicts with a fixed key set are modelled as structures; a dict whose
  `ctr`/`cpc` keys may be absent is modelled with `Option` fields
  (`CreativeIn`); after `_ensure_metrics` both keys are present (`Creative`).
- Raising an exception is modelled by `Except String`; a `try/except` block is
  the corresponding `match`.  `dict.copy()` on an immutable record is the
  identity and is not modelled.
- `random.choice(xs)` (rotator fallback) is modelled by an explicit oracle
  index: the chosen element is `xs[oracle % len(xs)]`.
-/

namespace AdsAggregator

/-- Python's `round` to an integer: round half to even (banker's rounding),
modelled on exact rationals. -/
def roundHalfEven (q : ℚ) : ℤ :=
  let f : ℤ := ⌊q⌋
  let r : ℚ := q - f
  if r < 1/2 then f
  else if 1/2 < r then f + 1
  else if f % 2 = 0 then f else f + 1

/-- Python's `round(x, 2)`: round to 2 decimal places. -/
def round2 (q : ℚ) : ℚ := (roundHalfEven (q * 100) : ℚ) / 100

/-- `BaseAdsClient._calculate_ctr` (base_client.py lines 63-67):
`0.0` when `impressions == 0`, else `round((clicks / impressions) * 100, 2)`. -/
def calculate_ctr (impressions clicks : ℕ) : ℚ :=
  if impressions = 0 then 0
  else round2 ((clicks : ℚ) / (impressions : ℚ) * 100)

/-- `BaseAdsClient._calculate_cpc` (base_client.py lines 69-73):
`0.0` when `clicks == 0`, else `round(spend / clicks, 2)`. -/
def calculate_cpc (spend : ℚ) (clicks : ℕ) : ℚ :=
  if clicks = 0 then 0
  else round2 (spend / (clicks : ℚ))

/-- The ctr expression of the rotator's backfill sites
(`CreativeRotator._ensure_metrics` line 61 and `add_creative` line 221):
`(clicks / impressions * 100) if impressions > 0 else 0.0` — no rounding. -/
def rotator_ctr (impressions clicks : ℕ) : ℚ :=
  if 0 < impressions then (clicks : ℚ) / (impressions : ℚ) * 100 else 0

/-- The cpc expression of the rotator's backfill sites
(`CreativeRotator._ensure_metrics` line 67 and `add_creative` line 224):
`(spend / clicks) if clicks > 0 else float('inf')` — no rounding,
infinity when `clicks == 0`. -/
def rotator_cpc (spend : ℚ) (clicks : ℕ) : WithTop ℚ :=
  if 0 < clicks then ((spend / (clicks : ℚ) : ℚ) : WithTop ℚ) else ⊤

/-- A creative dict as passed to `CreativeRotator`: the required keys
`ad_id, ad_name, impressions, clicks, spend` are present, the metric keys
`ctr`/`cpc` may be absent (`none`). -/
structure CreativeIn where
  ad_id : String
  ad_name : String
  impressions : ℕ
  clicks : ℕ
  spend : ℚ
  ctr : Option ℚ
  cpc : Option (WithTop ℚ)
  deriving DecidableEq, Repr

/-- A creative dict after `_ensure_metrics`: both metric keys present. -/
structure Creative where
  ad_id : String
  ad_name : String
  impressions : ℕ
  clicks : ℕ
  spend : ℚ
  ctr : ℚ
  cpc : WithTop ℚ
  deriving DecidableEq, Repr

instance : Inhabited Creative :=
  ⟨{ ad_id := "", ad_name := "", impressions := 0, clicks := 0, spend := 0,
     ctr := 0, cpc := 0 }⟩

/-- `CreativeRotator._ensure_metrics` / the backfill in `add_creative`
(rotator.py lines 54-67 and 219-224), on one creative: compute `ctr` and
`cpc` when the corresponding key is absent, keep the supplied value
otherwise. -/
def ensureMetrics (c : CreativeIn) : Creative :=
  { ad_id := c.ad_id, ad_name := c.ad_name, impressions := c.impressions,
    clicks := c.clicks, spend := c.spend,
    ctr := match c.ctr with
           | some v => v
           | none => rotator_ctr c.impressions c.clicks,
    cpc := match c.cpc with
           | some v => v
           | none => rotator_cpc c.spend c.clicks }

/-- The internal state of a `CreativeRotator`: the creative list and the
round-robin cursor `_round_robin_index`. -/
structure RotatorState where
  creatives : List Creative
  idx : ℕ
  deriving DecidableEq, Repr

/-- `CreativeRotator.__init__` (rotator.py lines 23-41): store the creatives,
set the cursor to 0, validate (`_validate_creatives`: error when the list is
empty; the required-field check always passes here because `CreativeIn` makes
the required keys total), then backfill metrics (`_ensure_metrics`). -/
def mkRotator (creatives : List CreativeIn) : Except String RotatorState :=
  if creatives.isEmpty then
    Except.error "Список креативов не может быть пустым"
  else
    Except.ok { creatives := creatives.map ensureMetrics, idx := 0 }

/-- The `RotationStrategy` enum (rotator.py lines 6-10). -/
inductive Strategy where
  | round_robin
  | best_ctr
  | lowest_cpc
  deriving DecidableEq, Repr

/-- `RotationStrategy(strategy)`: parse the strategy string; an unknown
string raises `ValueError` (modelled as `none`). -/
def parseStrategy (s : String) : Option Strategy :=
  if s = "round_robin" then some Strategy.round_robin
  else if s = "best_ctr" then some Strategy.best_ctr
  else if s = "lowest_cpc" then some Strategy.lowest_cpc
  else none

/-- `CreativeRotator._round_robin_choice` (rotator.py lines 96-105): read the
creative at the cursor, advance the cursor modulo the collection length,
return a copy of the creative.  `none` models the `IndexError` of an
out-of-bounds cursor (unreachable from `choose_next`, which rejects the empty
collection first and otherwise keeps the cursor in bounds). -/
def roundRobinChoice (s : RotatorState) : Option (Creative × RotatorState) :=
  match s.creatives[s.idx]? with
  | none => none
  | some c => some (c, { s with idx := (s.idx + 1) % s.creatives.length })

/-- Python's `max(xs, key=...)` on a non-empty list: scan left to right,
replace the current best only on a strictly greater key, so the FIRST
maximal element is kept on ties. -/
def pyMax (key : Creative → ℚ) (x : Creative) (xs : List Creative) : Creative :=
  xs.foldl (fun best c => if key best < key c then c else best) x

/-- Python's `min(xs, key=...)` on a non-empty list: the first minimal
element is kept on ties. -/
def pyMin (key : Creative → ℚ) (x : Creative) (xs : List Creative) : Creative :=
  xs.foldl (fun best c => if key c < key best then c else best) x

/-- `random.choice(l)`, with the randomness supplied by an oracle index. -/
def randomChoice (l : List Creative) (oracle : ℕ) : Option Creative :=
  l[oracle % l.length]?

/-- `CreativeRotator._best_ctr_choice` (rotator.py lines 107-122): among the
creatives with `impressions > 0`, the first one of maximal `ctr`; when none
qualifies, a random creative from the full collection. -/
def bestCtrChoice (creatives : List Creative) (oracle : ℕ) : Option Creative :=
  let valid := creatives.filter (fun c => 0 < c.impressions)
  match valid with
  | [] => randomChoice creatives oracle
  | x :: xs => some (pyMax (fun c => c.ctr) x xs)

/-- Python's `min` comparison on `cpc` values lives in `WithTop ℚ`
(`float('inf')` compares above every finite value); `pyMin` for that order. -/
def pyMinTop (key : Creative → WithTop ℚ) (x : Creative) (xs : List Creative) :
    Creative :=
  xs.foldl (fun best c => if key c < key best then c else best) x

/-- `CreativeRotator._lowest_cpc_choice` (rotator.py lines 124-139): among the
creatives with `clicks > 0`, the first one of minimal `cpc`; when none
qualifies, a random creative from the full collection. -/
def lowestCpcChoice (creatives : List Creative) (oracle : ℕ) : Option Creative :=
  let valid := creatives.filter (fun c => 0 < c.clicks)
  match valid with
  | [] => randomChoice creatives oracle
  | x :: xs => some (pyMinTop (fun c => c.cpc) x xs)

/-- `CreativeRotator.choose_next` (rotator.py lines 69-94): raise when the
collection is empty (checked before the strategy string is parsed), raise on
an unknown strategy, otherwise dispatch to the strategy's choice function.
The `oracle` feeds `random.choice` in the degenerate fallbacks. -/
def choose_next (s : RotatorState) (strategy : String) (oracle : ℕ) :
    Except String (Creative × RotatorState) :=
  if s.creatives.isEmpty then
    Except.error "Нет доступных креативов для ротации"
  else
    match parseStrategy strategy with
    | none => Except.error "Неизвестная стратегия ротации"
    | some Strategy.round_robin =>
      match roundRobinChoice s with
      | some r => Except.ok r
      | none => Except.error "IndexError"
    | some Strategy.best_ctr =>
      match bestCtrChoice s.creatives oracle with
      | some c => Except.ok (c, s)
      | none => Except.error "IndexError"
    | some Strategy.lowest_cpc =>
      match lowestCpcChoice s.creatives oracle with
      | some c => Except.ok (c, s)
      | none => Except.error "IndexError"

/-- `CreativeRotator.reset_round_robin` (rotator.py lines 203-205). -/
def reset_round_robin (s : RotatorState) : RotatorState :=
  { s with idx := 0 }

/-- `CreativeRotator.add_creative` (rotator.py lines 207-226): validate the
required fields (total here), backfill absent metrics with the same
expressions as `_ensure_metrics`, append at the end.  The cursor is not
touched. -/
def add_creative (s : RotatorState) (c : CreativeIn) : RotatorState :=
  { s with creatives := s.creatives ++ [ensureMetrics c] }

/-- `CreativeRotator.remove_creative` (rotator.py lines 228-247): keep every
creative whose `ad_id` differs from the argument; when the length shrank,
reset the cursor to 0 if it is not below the new length and return `True`;
otherwise return `False`. -/
def remove_creative (s : RotatorState) (adId : String) : Bool × RotatorState :=
  let newCreatives := s.creatives.filter (fun c => c.ad_id ≠ adId)
  if newCreatives.length < s.creatives.length then
    (true,
     { creatives := newCreatives,
       idx := if newCreatives.length ≤ s.idx then 0 else s.idx })
  else
    (false, { s with creatives := newCreatives })

/-- The loop body of `CreativeRotator.simulate_rotation` (rotator.py lines
266-271): `n` remaining iterations, `i` 0-based iterations already done; each
record carries the 1-based iteration index.  The oracle for iteration `i` is
`oracles i`. -/
def simulateLoop (strategy : String) (oracles : ℕ → ℕ) :
    RotatorState → ℕ → ℕ → Except String (List (ℕ × Creative) × RotatorState)
  | s, _, 0 => Except.ok ([], s)
  | s, i, n + 1 =>
    match choose_next s strategy (oracles i) with
    | Except.error e => Except.error e
    | Except.ok (c, s') =>
      match simulateLoop strategy oracles s' (i + 1) n with
      | Except.error e => Except.error e
      | Except.ok (rest, sf) => Except.ok ((i + 1, c) :: rest, sf)

/-- `CreativeRotator.simulate_rotation` (rotator.py lines 249-273): reset the
round-robin cursor first exactly when the strategy string is
`"round_robin"`, then run `iterations` calls of `choose_next`, recording
1-based iteration indices. -/
def simulate_rotation (s : RotatorState) (iterations : ℕ) (strategy : String)
    (oracles : ℕ → ℕ) : Except String (List (ℕ × Creative) × RotatorState) :=
  let s0 := if strategy = "round_robin" then reset_round_robin s else s
  simulateLoop strategy oracles s0 0 iterations

/-- A campaign dict as returned by a client's `fetch_campaigns`. -/
structure Campaign where
  campaign_id : String
  name : String
  impressions : ℕ
  clicks : ℕ
  spend : ℚ
  deriving DecidableEq, Repr

/-- A platform client as the aggregator consumes it (`BaseAdsClient`
interface, base_client.py): a stable platform name, the outcome of
`fetch_campaigns` and, per campaign id, the outcome of `fetch_ads`.  The date
range of one `aggregate_data` call is fixed, so the date arguments are
absorbed into the outcomes; a raised exception (including the `ValueError`
of `_validate_date_range`, raised inside the fetch methods) is the
`Except.error` case. -/
structure ClientModel where
  platform_name : String
  fetch_campaigns : Except String (List Campaign)
  fetch_ads : String → Except String (List Creative)

/-- One formatted campaign record of the aggregation result
(aggregator.py lines 101-127). -/
structure CampaignRecord where
  platform : String
  campaign_id : String
  name : String
  impressions : ℕ
  clicks : ℕ
  spend : ℚ
  ads : List Creative
  deriving DecidableEq, Repr

/-- The per-campaign body of `AdsAggregator._fetch_client_data`
(aggregator.py lines 95-127): call `fetch_ads`; on success format the
campaign with the returned ads, on any exception format it with an empty ads
list. -/
def format_campaign (client : ClientModel) (campaign : Campaign) :
    CampaignRecord :=
  { platform := client.platform_name,
    campaign_id := campaign.campaign_id,
    name := campaign.name,
    impressions := campaign.impressions,
    clicks := campaign.clicks,
    spend := campaign.spend,
    ads := match client.fetch_ads campaign.campaign_id with
           | Except.ok ads => ads
           | Except.error _ => [] }

/-- `AdsAggregator._fetch_client_data` (aggregator.py lines 77-129): an
exception from `fetch_campaigns` propagates; per-campaign `fetch_ads`
failures are caught inside the loop. -/
def fetch_client_data (client : ClientModel) :
    Except String (List CampaignRecord) :=
  match client.fetch_campaigns with
  | Except.error e => Except.error e
  | Except.ok campaigns => Except.ok (campaigns.map (format_campaign client))

/-- `AdsAggregator.aggregate_data` (aggregator.py lines 28-75), sequential
path (the parallel path runs the same per-client computation and differs
only in the completion order of the merge): accumulate each client's data,
catching any exception of `_fetch_client_data` and skipping that client.
Every statement of the Python body either cannot raise or sits inside a
`try/except Exception`, so the embedding is a total function. -/
def aggregate_data (clients : List ClientModel) : List CampaignRecord :=
  clients.foldl
    (fun all_data client =>
      match fetch_client_data client with
      | Except.ok platform_data => all_data ++ platform_data
      | Except.error _ => all_data)
    []

/-- Modelled from the spec: §7's description of when `aggregate` itself
fails — "the aggregation call itself fails only if given zero clients or a
malformed date range (checked before dispatch)".  `dateRangeOk` stands for
the §4.1 date-range condition `startDate ≤ endDate ∧ startDate ≤ today`.
Written from the spec's words, for comparison with `aggregate_data` above. -/
def aggregate_spec (clients : List ClientModel) (dateRangeOk : Bool) :
    Except String (List CampaignRecord) :=
  if clients.length = 0 ∨ dateRangeOk = false then
    Except.error "invalid aggregation input"
  else
    Except.ok (aggregate_data clients)

/-! ## Theorems -/

/-- A creative dict with `impressions == 0` and no precomputed metrics,
used to instantiate degenerate-input theorems. -/
def zeroImpCreative : CreativeIn :=
  { ad_id := "a", ad_name := "A", impressions := 0, clicks := 5, spend := 1,
    ctr := none, cpc := none }

/-- C2, counterexample: at `impressions = 3, clicks = 1` the platform-client
path returns `round((1/3)*100, 2) = 33.33`, while the rotator's backfill
path returns the unrounded `100/3`; the claim that every path rounds to 2
decimal places is false. -/
theorem C2_counterexample :
    rotator_ctr 3 1 ≠ calculate_ctr 3 1 ∧
    calculate_ctr 3 1 = 3333 / 100 ∧
    rotator_ctr 3 1 = 100 / 3 := by
  refine ⟨?_, ?_, ?_⟩ <;>
    · simp only [rotator_ctr, calculate_ctr, round2, roundHalfEven]
      norm_num

/-- C2, amended: ctr is `0.0` when `impressions == 0` in both paths;
otherwise it is `(clicks / impressions) * 100`, which the platform-client
path (`_calculate_ctr`) rounds to 2 decimal places while the rotator's
construction-time backfill (`_ensure_metrics`) leaves unrounded. -/
theorem C2_amended (c : CreativeIn) (h : c.ctr = none) :
    (ensureMetrics c).ctr = rotator_ctr c.impressions c.clicks ∧
    calculate_ctr c.impressions c.clicks =
      (if c.impressions = 0 then 0
       else round2 (rotator_ctr c.impressions c.clicks)) ∧
    (c.impressions = 0 →
      (ensureMetrics c).ctr = calculate_ctr c.impressions c.clicks) := by
  refine ⟨?_, ?_, ?_⟩
  · simp [ensureMetrics, h]
  · by_cases h0 : c.impressions = 0
    · simp [calculate_ctr, h0]
    · simp [calculate_ctr, rotator_ctr, h0, Nat.pos_of_ne_zero h0]
  · intro h0
    simp [ensureMetrics, h, rotator_ctr, calculate_ctr, h0]

/-- Witness for `C2_amended` at a concrete creative with `impressions = 0`. -/
theorem C2_amended_witness :
    (ensureMetrics zeroImpCreative).ctr =
      calculate_ctr zeroImpCreative.impressions zeroImpCreative.clicks :=
  (C2_amended zeroImpCreative rfl).2.2 rfl

/-- C7, counterexample: at `spend = 1, clicks = 3` the platform-client path
returns `round(1/3, 2) = 0.33`, not `1/3`; the claim that for `clicks > 0`
both paths compute `spend / clicks` is false (the client path rounds). -/
theorem C7_counterexample :
    calculate_cpc 1 3 ≠ 1 / 3 ∧
    calculate_cpc 1 3 = 33 / 100 ∧
    rotator_cpc 1 3 = ((1 / 3 : ℚ) : WithTop ℚ) := by
  refine ⟨?_, ?_, ?_⟩ <;>
    · simp only [rotator_cpc, calculate_cpc, round2, roundHalfEven]
      norm_num

/-- C7, amended: when `clicks == 0` the platform-client path
(`_calculate_cpc`) yields `0.0` and the rotator backfill path yields
`+infinity`, for every spend — the two paths genuinely diverge there; for
`clicks > 0` the rotator path computes `spend / clicks` exactly while the
client path computes `round(spend / clicks, 2)`. -/
theorem C7_amended (spend : ℚ) (clicks : ℕ) :
    calculate_cpc spend 0 = 0 ∧
    rotator_cpc spend 0 = ⊤ ∧
    rotator_cpc spend 0 ≠ ((calculate_cpc spend 0 : ℚ) : WithTop ℚ) ∧
    (0 < clicks →
      calculate_cpc spend clicks = round2 (spend / (clicks : ℚ)) ∧
      rotator_cpc spend clicks = ((spend / (clicks : ℚ) : ℚ) : WithTop ℚ)) := by
  refine ⟨rfl, rfl, ?_, ?_⟩
  · simp [rotator_cpc]
  · intro hpos
    constructor
    · simp [calculate_cpc, Nat.pos_iff_ne_zero.mp hpos]
    · simp [rotator_cpc, hpos]

/-- Witness for `C7_amended` at `spend = 1, clicks = 3`. -/
theorem C7_amended_witness :
    calculate_cpc 1 3 = round2 ((1 : ℚ) / ((3 : ℕ) : ℚ)) ∧
    rotator_cpc 1 3 = (((1 : ℚ) / ((3 : ℕ) : ℚ) : ℚ) : WithTop ℚ) :=
  (C7_amended 1 3).2.2.2 (by norm_num)

/-- Two creatives sharing the ad id "x" and one with ad id "y", for the
duplicate-id behaviour of `remove_creative`. -/
def dupX1 : Creative :=
  { ad_id := "x", ad_name := "one", impressions := 10, clicks := 1, spend := 1,
    ctr := 10, cpc := 1 }

def dupX2 : Creative :=
  { ad_id := "x", ad_name := "two", impressions := 20, clicks := 2, spend := 2,
    ctr := 10, cpc := 1 }

def dupY : Creative :=
  { ad_id := "y", ad_name := "three", impressions := 30, clicks := 3, spend := 3,
    ctr := 10, cpc := 1 }

def dupState : RotatorState := { creatives := [dupX1, dupX2, dupY], idx := 0 }

/-- C3, counterexample: on a collection holding two records with `ad_id` "x",
`remove_creative "x"` removes BOTH (the list comprehension keeps only
non-matching records), leaving `[dupY]` — not `[dupX2, dupY]` as
removing only the first matching record would. -/
theorem C3_counterexample :
    (remove_creative dupState "x").1 = true ∧
    (remove_creative dupState "x").2.creatives = [dupY] ∧
    (remove_creative dupState "x").2.creatives ≠ [dupX2, dupY] ∧
    dupState.creatives.filter (fun c => c.ad_id = "x") = [dupX1, dupX2] := by
  refine ⟨?_, ?_, ?_, ?_⟩ <;> decide

/-- Every record of `l` survives a filter that keeps strictly fewer
records iff some record matches the removed id. -/
theorem filter_ne_length_lt_iff (l : List Creative) (adId : String) :
    (l.filter (fun c => c.ad_id ≠ adId)).length < l.length ↔
      ∃ c ∈ l, c.ad_id = adId := by
  induction l with
  | nil => simp
  | cons x xs ih =>
    by_cases hx : x.ad_id = adId
    · simp [List.filter_cons, hx]
      exact Nat.lt_succ_of_le (List.length_filter_le _ _)
    · simp only [List.filter_cons, List.length_cons]
      rw [if_pos (by simp [hx])]
      simp only [List.length_cons, Nat.succ_lt_succ_iff, ih, List.mem_cons]
      constructor
      · intro ⟨c, hc, hcid⟩; exact ⟨c, Or.inr hc, hcid⟩
      · rintro ⟨c, hc | hc, hcid⟩
        · exact absurd (hc ▸ hcid) hx
        · exact ⟨c, hc, hcid⟩

/-- C3, amended: `remove_creative(adId)` removes EVERY record whose `ad_id`
equals `adId` (not only the first); it returns `true` iff at least one
record matched; when none matches the collection and cursor are unchanged;
after a removal the cursor is reset to 0 exactly when it is not below the
new length. -/
theorem C3_amended (s : RotatorState) (adId : String) :
    ((remove_creative s adId).2.creatives =
      s.creatives.filter (fun c => c.ad_id ≠ adId)) ∧
    ((remove_creative s adId).1 = true ↔ ∃ c ∈ s.creatives, c.ad_id = adId) ∧
    ((remove_creative s adId).1 = false → (remove_creative s adId).2 = s) ∧
    ((remove_creative s adId).1 = true →
      (remove_creative s adId).2.idx =
        if (remove_creative s adId).2.creatives.length ≤ s.idx then 0
        else s.idx) := by
  have hrc : remove_creative s adId =
      if (s.creatives.filter (fun c => c.ad_id ≠ adId)).length <
          s.creatives.length then
        (true,
         { creatives := s.creatives.filter (fun c => c.ad_id ≠ adId),
           idx := if (s.creatives.filter
               (fun c => c.ad_id ≠ adId)).length ≤ s.idx then 0
             else s.idx })
      else
        (false,
         { s with creatives := s.creatives.filter (fun c => c.ad_id ≠ adId) }) :=
    rfl
  by_cases hlt : (s.creatives.filter (fun c => c.ad_id ≠ adId)).length <
      s.creatives.length
  · rw [hrc, if_pos hlt]
    refine ⟨rfl, ?_, ?_, ?_⟩
    · exact ⟨fun _ => (filter_ne_length_lt_iff s.creatives adId).mp hlt,
        fun _ => rfl⟩
    · intro h; exact absurd h (by simp)
    · intro _; rfl
  · rw [hrc, if_neg hlt]
    refine ⟨rfl, ?_, ?_, ?_⟩
    · constructor
      · intro h; exact absurd h (by simp)
      · intro hex
        exact absurd ((filter_ne_length_lt_iff s.creatives adId).mpr hex) hlt
    · intro _
      have hle : (s.creatives.filter (fun c => c.ad_id ≠ adId)).length ≤
          s.creatives.length := List.length_filter_le _ _
      have hlen : (s.creatives.filter (fun c => c.ad_id ≠ adId)).length =
          s.creatives.length := by omega
      have heq : s.creatives.filter (fun c => c.ad_id ≠ adId) = s.creatives :=
        (List.filter_sublist s.creatives).eq_of_length hlen
      show ({ s with
        creatives := s.creatives.filter (fun c => c.ad_id ≠ adId) }
          : RotatorState) = s
      rw [heq]
    · intro h; exact absurd h (by simp)

/-- Witness for `C3_amended` on a state where a removal empties the
collection and resets the cursor. -/
theorem C3_amended_witness :
    (remove_creative dupState "x").2.idx =
      if (remove_creative dupState "x").2.creatives.length ≤ dupState.idx
      then 0 else dupState.idx :=
  (C3_amended dupState "x").2.2.2 (by decide)

/-! ### Cursor invariant (C4) -/

/-- The inductive strengthening of the spec's cursor invariant: the cursor is
in bounds, or it is 0 (the only out-of-bounds value the code can leave
behind, and only when the collection is empty after removals).  For a
non-empty collection it implies `0 ≤ cursor < len(creatives)`. -/
def cursorInv (s : RotatorState) : Prop :=
  s.idx < s.creatives.length ∨ s.idx = 0

/-- Unfolding equation for `remove_creative` (its body binds the filtered
list with a `let`). -/
theorem remove_creative_eq (s : RotatorState) (adId : String) :
    remove_creative s adId =
      if (s.creatives.filter (fun c => c.ad_id ≠ adId)).length <
          s.creatives.length then
        (true,
         { creatives := s.creatives.filter (fun c => c.ad_id ≠ adId),
           idx := if (s.creatives.filter
               (fun c => c.ad_id ≠ adId)).length ≤ s.idx then 0
             else s.idx })
      else
        (false,
         { s with creatives := s.creatives.filter (fun c => c.ad_id ≠ adId) }) :=
  rfl

theorem parse_round_robin :
    parseStrategy "round_robin" = some Strategy.round_robin := rfl

theorem parse_best_ctr :
    parseStrategy "best_ctr" = some Strategy.best_ctr := rfl

theorem parse_lowest_cpc :
    parseStrategy "lowest_cpc" = some Strategy.lowest_cpc := rfl

/-- A successful `_round_robin_choice` advances the cursor modulo the
collection length and leaves the collection unchanged. -/
theorem roundRobinChoice_state (s : RotatorState) (r : Creative × RotatorState)
    (h : roundRobinChoice s = some r) :
    r.2 = { s with idx := (s.idx + 1) % s.creatives.length } := by
  unfold roundRobinChoice at h
  cases hg : s.creatives[s.idx]? with
  | none => rw [hg] at h; cases h
  | some c => rw [hg] at h; cases h; rfl

/-- A successful `choose_next` leaves the cursor invariant intact. -/
theorem choose_next_cursorInv (s : RotatorState) (hs : cursorInv s)
    (strategy : String) (oracle : ℕ) (c : Creative) (s' : RotatorState)
    (h : choose_next s strategy oracle = Except.ok (c, s')) : cursorInv s' := by
  by_cases hemp : s.creatives.isEmpty = true
  · simp only [choose_next, hemp, if_true] at h
    exact absurd h (by simp)
  · have hlen : 0 < s.creatives.length := by
      cases hcs : s.creatives with
      | nil => rw [hcs] at hemp; exact absurd rfl hemp
      | cons a l => simp
    simp only [choose_next, hemp, Bool.false_eq_true, if_false] at h
    cases hps : parseStrategy strategy with
    | none => rw [hps] at h; exact absurd h (by simp)
    | some st =>
      rw [hps] at h
      cases st with
      | round_robin =>
        cases hrr : roundRobinChoice s with
        | none => rw [hrr] at h; exact absurd h (by simp)
        | some r =>
          rw [hrr] at h
          have hr2 := roundRobinChoice_state s r hrr
          have hrc : r = (c, s') := by injection h
          rw [hrc] at hr2
          have hs2 : s' = { s with idx := (s.idx + 1) % s.creatives.length } :=
            hr2
          left
          rw [hs2]
          exact Nat.mod_lt _ hlen
      | best_ctr =>
        cases hbc : bestCtrChoice s.creatives oracle with
        | none => rw [hbc] at h; exact absurd h (by simp)
        | some c0 =>
          rw [hbc] at h
          have : (c0, s) = (c, s') := by injection h
          have hss : s = s' := congrArg Prod.snd this
          rw [← hss]; exact hs
      | lowest_cpc =>
        cases hlc : lowestCpcChoice s.creatives oracle with
        | none => rw [hlc] at h; exact absurd h (by simp)
        | some c0 =>
          rw [hlc] at h
          have : (c0, s) = (c, s') := by injection h
          have hss : s = s' := congrArg Prod.snd this
          rw [← hss]; exact hs

/-- `add_creative` preserves the cursor invariant (the cursor is untouched
and the collection grows). -/
theorem add_creative_cursorInv (s : RotatorState) (hs : cursorInv s)
    (c : CreativeIn) : cursorInv (add_creative s c) := by
  cases hs with
  | inl h =>
    left
    simp only [add_creative, List.length_append, List.length_cons,
      List.length_nil]
    omega
  | inr h => right; exact h

/-- `remove_creative` preserves the cursor invariant (resetting to 0 when
the cursor would fall outside the shrunken collection). -/
theorem remove_creative_cursorInv (s : RotatorState) (hs : cursorInv s)
    (adId : String) : cursorInv (remove_creative s adId).2 := by
  rw [remove_creative_eq]
  by_cases hlt : (s.creatives.filter (fun c => c.ad_id ≠ adId)).length <
      s.creatives.length
  · rw [if_pos hlt]
    by_cases hle : (s.creatives.filter (fun c => c.ad_id ≠ adId)).length ≤ s.idx
    · right
      show (if (s.creatives.filter (fun c => c.ad_id ≠ adId)).length ≤ s.idx
        then 0 else s.idx) = 0
      rw [if_pos hle]
    · left
      show (if (s.creatives.filter (fun c => c.ad_id ≠ adId)).length ≤ s.idx
        then 0 else s.idx) < (s.creatives.filter (fun c => c.ad_id ≠ adId)).length
      rw [if_neg hle]
      omega
  · rw [if_neg hlt]
    have hlen : (s.creatives.filter (fun c => c.ad_id ≠ adId)).length =
        s.creatives.length := by
      have := List.length_filter_le (fun c => decide (c.ad_id ≠ adId))
        s.creatives
      omega
    cases hs with
    | inl h => left; rw [hlen]; exact h
    | inr h => right; exact h

/-- `simulate_rotation`'s loop preserves the cursor invariant. -/
theorem simulateLoop_cursorInv (strategy : String) (oracles : ℕ → ℕ) (n : ℕ) :
    ∀ (i : ℕ) (s : RotatorState), cursorInv s →
      ∀ out sf, simulateLoop strategy oracles s i n = Except.ok (out, sf) →
        cursorInv sf := by
  induction n with
  | zero =>
    intro i s hs out sf h
    unfold simulateLoop at h
    have : s = sf := by injection h with h1; exact congrArg Prod.snd h1
    rw [← this]; exact hs
  | succ n ih =>
    intro i s hs out sf h
    unfold simulateLoop at h
    cases hc : choose_next s strategy (oracles i) with
    | error e => rw [hc] at h; cases h
    | ok p =>
      rw [hc] at h
      obtain ⟨c, s'⟩ := p
      dsimp only at h
      have hs' := choose_next_cursorInv s hs strategy (oracles i) c s' hc
      cases hr : simulateLoop strategy oracles s' (i + 1) n with
      | error e => rw [hr] at h; cases h
      | ok q =>
        rw [hr] at h
        obtain ⟨rest, sf'⟩ := q
        have : sf' = sf := by injection h with h1; exact congrArg Prod.snd h1
        rw [← this]
        exact ih (i + 1) s' hs' rest sf' hr

/-- C4: the cursor invariant `0 ≤ cursor < len(creatives)` (for a non-empty
collection) holds after construction and is preserved by every operation;
construction with an empty creative set is rejected.  `cursorInv` is the
inductive strengthening (in-bounds, or cursor = 0 — the only state the code
reaches with an empty collection); the third conjunct discharges the spec's
invariant from it. -/
theorem C4_cursor_invariant :
    (∀ cs s, mkRotator cs = Except.ok s → s.idx = 0 ∧ cursorInv s) ∧
    (mkRotator [] = Except.error "Список креативов не может быть пустым") ∧
    (∀ s, cursorInv s → s.creatives ≠ [] → s.idx < s.creatives.length) ∧
    (∀ s, cursorInv s →
      (∀ strategy oracle c s',
        choose_next s strategy oracle = Except.ok (c, s') → cursorInv s') ∧
      (∀ c, cursorInv (add_creative s c)) ∧
      (∀ adId, cursorInv (remove_creative s adId).2) ∧
      cursorInv (reset_round_robin s) ∧
      (∀ iters strategy oracles out s',
        simulate_rotation s iters strategy oracles = Except.ok (out, s') →
          cursorInv s')) := by
  refine ⟨?_, rfl, ?_, ?_⟩
  · intro cs s h
    unfold mkRotator at h
    by_cases hemp : cs.isEmpty = true
    · rw [if_pos hemp] at h; cases h
    · rw [if_neg hemp] at h
      have : ({ creatives := cs.map ensureMetrics, idx := 0 } :
          RotatorState) = s := by injection h
      rw [← this]
      exact ⟨rfl, Or.inr rfl⟩
  · intro s hs hne
    cases hs with
    | inl h => exact h
    | inr h =>
      rw [h]
      cases hcs : s.creatives with
      | nil => exact absurd hcs hne
      | cons a l => simp
  · intro s hs
    refine ⟨fun strategy oracle c s' h =>
        choose_next_cursorInv s hs strategy oracle c s' h,
      fun c => add_creative_cursorInv s hs c,
      fun adId => remove_creative_cursorInv s hs adId,
      Or.inr rfl,
      ?_⟩
    intro iters strategy oracles out s' h
    unfold simulate_rotation at h
    by_cases hrr : strategy = "round_robin"
    · rw [if_pos hrr] at h
      exact simulateLoop_cursorInv strategy oracles iters 0
        (reset_round_robin s) (Or.inr rfl) out s' h
    · rw [if_neg hrr] at h
      exact simulateLoop_cursorInv strategy oracles iters 0 s hs out s' h

/-- Witness for `C4_cursor_invariant`: construction from one concrete
creative yields cursor 0 and the invariant. -/
theorem C4_cursor_invariant_witness :
    ({ creatives := [ensureMetrics zeroImpCreative], idx := 0 }
      : RotatorState).idx = 0 ∧
    cursorInv { creatives := [ensureMetrics zeroImpCreative], idx := 0 } :=
  C4_cursor_invariant.1 [zeroImpCreative]
    { creatives := [ensureMetrics zeroImpCreative], idx := 0 } rfl

/-! ### Round-robin rotation (C8) -/

/-- The state after `k` successive `choose_next("round_robin")` calls is fed
to the next call: `rrIter s k` is the outcome of the `(k+1)`-st call starting
from `s`. -/
def rrIter : RotatorState → ℕ → Except String (Creative × RotatorState)
  | s, 0 => choose_next s "round_robin" 0
  | s, k + 1 =>
    match choose_next s "round_robin" 0 with
    | Except.ok r => rrIter r.2 k
    | Except.error e => Except.error e

/-- `choose_next("round_robin")` with an in-bounds cursor returns the
creative at the cursor and advances the cursor modulo the length. -/
theorem choose_next_round_robin_eq (s : RotatorState)
    (h : s.idx < s.creatives.length) (oracle : ℕ) :
    choose_next s "round_robin" oracle =
      Except.ok (s.creatives.getD s.idx default,
        { s with idx := (s.idx + 1) % s.creatives.length }) := by
  have hemp : s.creatives.isEmpty = false := by
    cases hcs : s.creatives with
    | nil => rw [hcs] at h; simp at h
    | cons a l => rfl
  have hg : s.creatives[s.idx]? = some s.creatives[s.idx] :=
    List.getElem?_eq_getElem h
  have hgd : s.creatives.getD s.idx default = s.creatives[s.idx] := by
    rw [List.getD_eq_getElem?_getD, hg]; rfl
  have hrr : roundRobinChoice s = some (s.creatives.getD s.idx default,
      { s with idx := (s.idx + 1) % s.creatives.length }) := by
    unfold roundRobinChoice
    rw [hg, hgd]
  simp only [choose_next, hemp, Bool.false_eq_true, if_false,
    parse_round_robin, hrr]

/-- Successive round-robin calls cycle through the collection: starting at
cursor `i`, the `(k+1)`-st call yields the creative at index
`(i + k) mod len` and leaves the cursor at `(i + k + 1) mod len`. -/
theorem rrIter_cyclic (cs : List Creative) (hlen : 0 < cs.length) :
    ∀ (k i : ℕ), i < cs.length →
      rrIter { creatives := cs, idx := i } k =
        Except.ok (cs.getD ((i + k) % cs.length) default,
          { creatives := cs, idx := (i + k + 1) % cs.length }) := by
  intro k
  induction k with
  | zero =>
    intro i hi
    have hcn := choose_next_round_robin_eq
      { creatives := cs, idx := i } hi 0
    simp only [rrIter]
    rw [hcn]
    simp [Nat.mod_eq_of_lt hi]
  | succ k ih =>
    intro i hi
    have hcn := choose_next_round_robin_eq
      { creatives := cs, idx := i } hi 0
    simp only [rrIter]
    rw [hcn]
    dsimp only
    rw [ih ((i + 1) % cs.length) (Nat.mod_lt _ hlen)]
    have h1 : ((i + 1) % cs.length + k) % cs.length =
        (i + (k + 1)) % cs.length := by
      rw [Nat.mod_add_mod]; congr 1; omega
    have h2 : ((i + 1) % cs.length + k + 1) % cs.length =
        (i + (k + 1) + 1) % cs.length := by
      rw [Nat.add_assoc, Nat.mod_add_mod]; congr 1; omega
    rw [h1, h2]

/-- C8: with a non-empty collection and in-bounds cursor,
`choose_next("round_robin")` returns the creative at the cursor and advances
the cursor to `(cursor + 1) mod len`; starting from cursor 0, the `(k+1)`-st
successive call yields the creative at index `k mod len` — the cyclic
sequence `A,B,C,A,B,C,...` — and after `reset_round_robin` the next call
yields the creative at index 0. -/
theorem C8_round_robin (s : RotatorState) (h : s.idx < s.creatives.length) :
    (∀ oracle, choose_next s "round_robin" oracle =
      Except.ok (s.creatives.getD s.idx default,
        { s with idx := (s.idx + 1) % s.creatives.length })) ∧
    (∀ k, rrIter { creatives := s.creatives, idx := 0 } k =
      Except.ok (s.creatives.getD (k % s.creatives.length) default,
        { creatives := s.creatives, idx := (k + 1) % s.creatives.length })) ∧
    (∀ oracle, choose_next (reset_round_robin s) "round_robin" oracle =
      Except.ok (s.creatives.getD 0 default,
        { creatives := s.creatives, idx := 1 % s.creatives.length })) := by
  have hlen : 0 < s.creatives.length := by omega
  refine ⟨fun oracle => choose_next_round_robin_eq s h oracle, ?_, ?_⟩
  · intro k
    have := rrIter_cyclic s.creatives hlen k 0 hlen
    simpa using this
  · intro oracle
    have := choose_next_round_robin_eq (reset_round_robin s) hlen oracle
    simpa [reset_round_robin] using this

/-- Witness for `C8_round_robin`: the 5th call over a 3-element collection
yields the element at index `4 mod 3 = 1`. -/
theorem C8_round_robin_witness :
    rrIter { creatives := dupState.creatives, idx := 0 } 4 =
      Except.ok (dupState.creatives.getD (4 % dupState.creatives.length) default,
        { creatives := dupState.creatives,
          idx := (4 + 1) % dupState.creatives.length }) :=
  (C8_round_robin dupState (by simp [dupState])).2.1 4

/-! ### Best-CTR selection (C9) and the empty-collection error (C10) -/

/-- Python's `max(l, key=...)` keeps the first maximal element: the result
splits the list into a strictly-smaller prefix, the result itself, and a
not-larger remainder. -/
theorem pyMax_spec (key : Creative → ℚ) (x : Creative) (xs : List Creative) :
    ∃ l1 l2, x :: xs = l1 ++ pyMax key x xs :: l2 ∧
      (∀ y ∈ l1, key y < key (pyMax key x xs)) ∧
      (∀ y ∈ x :: xs, key y ≤ key (pyMax key x xs)) := by
  induction xs generalizing x with
  | nil =>
    refine ⟨[], [], by simp [pyMax], by simp, ?_⟩
    intro y hy
    have : y = x := by simpa using hy
    simp [pyMax, this]
  | cons c cs ih =>
    by_cases hxc : key x < key c
    · have hpm : pyMax key x (c :: cs) = pyMax key c cs := by
        simp [pyMax, List.foldl_cons, if_pos hxc]
      obtain ⟨l1, l2, heq, hlt, hle⟩ := ih c
      have hcm : key c ≤ key (pyMax key c cs) := hle c (List.mem_cons_self c cs)
      refine ⟨x :: l1, l2, ?_, ?_, ?_⟩
      · rw [hpm, List.cons_append, ← heq]
      · intro y hy
        rw [hpm]
        rcases List.mem_cons.mp hy with h | h
        · rw [h]; exact lt_of_lt_of_le hxc hcm
        · exact hlt y h
      · intro y hy
        rw [hpm]
        rcases List.mem_cons.mp hy with h | h
        · rw [h]; exact le_of_lt (lt_of_lt_of_le hxc hcm)
        · exact hle y h
    · have hpm : pyMax key x (c :: cs) = pyMax key x cs := by
        simp [pyMax, List.foldl_cons, if_neg hxc]
      have hcx : key c ≤ key x := le_of_not_lt hxc
      obtain ⟨l1, l2, heq, hlt, hle⟩ := ih x
      cases l1 with
      | nil =>
        have heq' : x :: cs = pyMax key x cs :: l2 := by
          rw [List.nil_append] at heq; exact heq
        have hm : x = pyMax key x cs := by injection heq'
        refine ⟨[], c :: cs, by rw [hpm, ← hm]; simp, by simp, ?_⟩
        intro y hy
        rw [hpm, ← hm]
        rcases List.mem_cons.mp hy with h | h
        · rw [h]
        · rcases List.mem_cons.mp h with h' | h'
          · rw [h']; exact hcx
          · have := hle y (List.mem_cons_of_mem x h')
            rw [← hm] at this; exact this
      | cons a l1' =>
        have heq' : x :: cs = a :: (l1' ++ pyMax key x cs :: l2) := by
          rw [List.cons_append] at heq; exact heq
        have hax : x = a := by injection heq'
        have hcs : cs = l1' ++ pyMax key x cs :: l2 := by injection heq'
        have hxm : key x < key (pyMax key x cs) := by
          have h0 := hlt a (List.mem_cons_self a l1')
          rw [← hax] at h0
          exact h0
        refine ⟨x :: c :: l1', l2, ?_, ?_, ?_⟩
        · rw [hpm, List.cons_append, List.cons_append, ← hcs]
        · intro y hy
          rw [hpm]
          rcases List.mem_cons.mp hy with h | h
          · rw [h]; exact hxm
          · rcases List.mem_cons.mp h with h' | h'
            · rw [h']; exact lt_of_le_of_lt hcx hxm
            · exact hlt y (List.mem_cons_of_mem a h')
        · intro y hy
          rw [hpm]
          rcases List.mem_cons.mp hy with h | h
          · rw [h]; exact le_of_lt hxm
          · rcases List.mem_cons.mp h with h' | h'
            · rw [h']; exact le_of_lt (lt_of_le_of_lt hcx hxm)
            · exact hle y (List.mem_cons_of_mem x h')

/-- `choose_next("best_ctr")` on a non-empty collection dispatches to
`_best_ctr_choice` and never mutates the state. -/
theorem choose_next_best_ctr (s : RotatorState) (hne : s.creatives ≠ [])
    (oracle : ℕ) :
    choose_next s "best_ctr" oracle =
      match bestCtrChoice s.creatives oracle with
      | some c => Except.ok (c, s)
      | none => Except.error "IndexError" := by
  have hemp : s.creatives.isEmpty = false := by
    cases hcs : s.creatives with
    | nil => exact absurd hcs hne
    | cons a l => rfl
  simp only [choose_next, hemp, Bool.false_eq_true, if_false, parse_best_ctr]

/-- C9: with a non-empty collection, `choose_next("best_ctr")` does not
mutate the state and returns: when some creative has `impressions > 0`, the
first (in collection order) creative of maximal `ctr` among those with
`impressions > 0` — the strictly-smaller prefix `l1` of the filtered list
expresses the first-on-ties rule; when no creative has positive impressions,
some creative of the full collection (the `random.choice` fallback) rather
than an error. -/
theorem C9_best_ctr (s : RotatorState) (oracle : ℕ) (h : s.creatives ≠ []) :
    ((∃ c ∈ s.creatives, 0 < c.impressions) →
      ∃ c l1 l2, choose_next s "best_ctr" oracle = Except.ok (c, s) ∧
        s.creatives.filter (fun d => 0 < d.impressions) = l1 ++ c :: l2 ∧
        (∀ d ∈ l1, d.ctr < c.ctr) ∧
        (∀ d ∈ s.creatives, 0 < d.impressions → d.ctr ≤ c.ctr)) ∧
    ((∀ c ∈ s.creatives, ¬ 0 < c.impressions) →
      ∃ c, choose_next s "best_ctr" oracle = Except.ok (c, s) ∧
        c ∈ s.creatives) := by
  constructor
  · intro hex
    obtain ⟨c0, hc0, hc0p⟩ := hex
    have hc0f : c0 ∈ s.creatives.filter (fun d => 0 < d.impressions) :=
      List.mem_filter.mpr ⟨hc0, by simpa using hc0p⟩
    cases hv : s.creatives.filter (fun d => 0 < d.impressions) with
    | nil => rw [hv] at hc0f; cases hc0f
    | cons x xs =>
      have hbc : bestCtrChoice s.creatives oracle =
          some (pyMax (fun c => c.ctr) x xs) := by
        simp only [bestCtrChoice]
        rw [hv]
      obtain ⟨l1, l2, heq, hlt, hle⟩ := pyMax_spec (fun c => c.ctr) x xs
      refine ⟨pyMax (fun c => c.ctr) x xs, l1, l2, ?_, ?_, hlt, ?_⟩
      · rw [choose_next_best_ctr s h oracle, hbc]
      · exact heq
      · intro d hd hdp
        have : d ∈ s.creatives.filter (fun d => 0 < d.impressions) :=
          List.mem_filter.mpr ⟨hd, by simpa using hdp⟩
        rw [hv] at this
        exact hle d this
  · intro hall
    have hv : s.creatives.filter (fun d => 0 < d.impressions) = [] :=
      List.filter_eq_nil_iff.mpr (fun c hc => by simpa using hall c hc)
    have hlen : 0 < s.creatives.length := by
      cases hcs : s.creatives with
      | nil => exact absurd hcs h
      | cons a l => simp
    have hmod : oracle % s.creatives.length < s.creatives.length :=
      Nat.mod_lt _ hlen
    have hrc : randomChoice s.creatives oracle =
        some s.creatives[oracle % s.creatives.length] := by
      unfold randomChoice
      exact List.getElem?_eq_getElem hmod
    have hbc : bestCtrChoice s.creatives oracle =
        some s.creatives[oracle % s.creatives.length] := by
      simp only [bestCtrChoice]
      rw [hv, hrc]
    refine ⟨s.creatives[oracle % s.creatives.length], ?_, List.getElem_mem _⟩
    rw [choose_next_best_ctr s h oracle, hbc]

/-- Creatives with ctr values `[5, 2, 5]`: the spec's tie-break example. -/
def tieA : Creative :=
  { ad_id := "a", ad_name := "A", impressions := 100, clicks := 5, spend := 1,
    ctr := 5, cpc := 1 }

def tieB : Creative :=
  { ad_id := "b", ad_name := "B", impressions := 100, clicks := 2, spend := 1,
    ctr := 2, cpc := 1 }

def tieC : Creative :=
  { ad_id := "c", ad_name := "C", impressions := 100, clicks := 5, spend := 1,
    ctr := 5, cpc := 1 }

def tieState : RotatorState := { creatives := [tieA, tieB, tieC], idx := 0 }

/-- Witness for `C9_best_ctr` on the spec's `[5.0, 2.0, 5.0]` example. -/
theorem C9_best_ctr_witness :
    ∃ c l1 l2, choose_next tieState "best_ctr" 0 = Except.ok (c, tieState) ∧
      tieState.creatives.filter (fun d => 0 < d.impressions) = l1 ++ c :: l2 ∧
      (∀ d ∈ l1, d.ctr < c.ctr) ∧
      (∀ d ∈ tieState.creatives, 0 < d.impressions → d.ctr ≤ c.ctr) :=
  (C9_best_ctr tieState 0 (by simp [tieState])).1
    ⟨tieA, by simp [tieState], by norm_num [tieA]⟩

/-- C10: the collection, non-empty at construction, can become empty through
`remove_creative`; in that state every `choose_next` call — whatever the
strategy string, known or not — raises the empty-collection `ValueError`
(the emptiness check precedes strategy parsing). -/
theorem C10_choose_next_after_emptying :
    (∃ (cs : List CreativeIn) (s : RotatorState) (adId : String),
      mkRotator cs = Except.ok s ∧ (remove_creative s adId).1 = true ∧
      (remove_creative s adId).2.creatives = []) ∧
    (∀ s : RotatorState, s.creatives = [] → ∀ strategy oracle,
      choose_next s strategy oracle =
        Except.error "Нет доступных креативов для ротации") := by
  constructor
  · exact ⟨[zeroImpCreative],
      { creatives := [ensureMetrics zeroImpCreative], idx := 0 }, "a",
      rfl, rfl, rfl⟩
  · intro s hs strategy oracle
    have hemp : s.creatives.isEmpty = true := by rw [hs]; rfl
    simp only [choose_next, hemp, if_true]

/-- Witness for `C10_choose_next_after_emptying` on a concrete empty state
and an unknown strategy string. -/
theorem C10_witness :
    choose_next { creatives := [], idx := 0 } "bogus" 7 =
      Except.error "Нет доступных креативов для ротации" :=
  C10_choose_next_after_emptying.2 { creatives := [], idx := 0 } rfl "bogus" 7

/-! ### Aggregator error handling (C1, C5, C6) -/

/-- What one client adds to the aggregation result: its formatted campaign
records on success, nothing when its `fetch_campaigns` raised. -/
def client_contribution (c : ClientModel) : List CampaignRecord :=
  match fetch_client_data c with
  | Except.ok d => d
  | Except.error _ => []

/-- The aggregation fold appends exactly each client's contribution. -/
theorem aggregate_foldl (clients : List ClientModel)
    (acc : List CampaignRecord) :
    clients.foldl
      (fun all_data client =>
        match fetch_client_data client with
        | Except.ok platform_data => all_data ++ platform_data
        | Except.error _ => all_data)
      acc =
    acc ++ (clients.map client_contribution).flatten := by
  induction clients generalizing acc with
  | nil => simp
  | cons c cs ih =>
    simp only [List.foldl_cons, List.map_cons, List.flatten_cons]
    cases hc : fetch_client_data c with
    | ok d =>
      rw [ih]
      simp [client_contribution, hc, List.append_assoc]
    | error e =>
      rw [ih]
      simp [client_contribution, hc]

/-- `aggregate_data` is the concatenation of per-client contributions. -/
theorem aggregate_data_eq (clients : List ClientModel) :
    aggregate_data clients = (clients.map client_contribution).flatten := by
  unfold aggregate_data
  rw [aggregate_foldl]
  simp

/-- C1, counterexample: with zero clients the spec's description of
`aggregate` demands an error, but `aggregate_data` performs no zero-client
(or date-range) check and returns the empty list. -/
theorem C1_counterexample :
    aggregate_spec [] true = Except.error "invalid aggregation input" ∧
    aggregate_data [] = [] := ⟨rfl, rfl⟩

/-- C1, amended: `aggregate_data` never raises: with zero clients it returns
the empty list; the date-range validation lives inside the clients' fetch
methods, and every error a client raises during fetching — date-range
`ValueError` included — is caught per-client inside `aggregate_data` and
never propagates: the result is always the concatenation of the successful
clients' contributions, and the empty list when every client fails. -/
theorem C1_amended (clients : List ClientModel) :
    aggregate_data ([] : List ClientModel) = [] ∧
    aggregate_data clients = (clients.map client_contribution).flatten ∧
    ((∀ c ∈ clients, ∃ e, fetch_client_data c = Except.error e) →
      aggregate_data clients = []) := by
  refine ⟨rfl, aggregate_data_eq clients, ?_⟩
  intro hall
  rw [aggregate_data_eq]
  apply List.flatten_eq_nil_iff.mpr
  intro l hl
  obtain ⟨c, hc, rfl⟩ := List.mem_map.mp hl
  obtain ⟨e, he⟩ := hall c hc
  simp [client_contribution, he]

/-- A client whose `fetch_campaigns` always raises. -/
def failingClient : ClientModel :=
  { platform_name := "p",
    fetch_campaigns := Except.error "boom",
    fetch_ads := fun _ => Except.ok [] }

/-- Witness for `C1_amended`: one client whose `fetch_campaigns` raises. -/
theorem C1_amended_witness :
    aggregate_data [failingClient] = [] :=
  (C1_amended [failingClient]).2.2
    (by
      intro c hc
      rw [List.mem_singleton] at hc
      subst hc
      exact ⟨"boom", rfl⟩)

/-- C5: the aggregation result is exactly the concatenation of the
contributions of the clients whose `fetch_campaigns` succeeded: a client
whose fetch raises contributes nothing (its error is caught), aggregation
itself returns a value rather than raising, and when every client fails the
result is the empty list. -/
theorem C5_per_client_failure (clients : List ClientModel) :
    aggregate_data clients = (clients.map client_contribution).flatten ∧
    (∀ c ∈ clients, (∃ e, c.fetch_campaigns = Except.error e) →
      client_contribution c = []) ∧
    ((∀ c ∈ clients, ∃ e, c.fetch_campaigns = Except.error e) →
      aggregate_data clients = []) := by
  refine ⟨aggregate_data_eq clients, ?_, ?_⟩
  · intro c _ he
    obtain ⟨e, he⟩ := he
    simp [client_contribution, fetch_client_data, he]
  · intro hall
    rw [aggregate_data_eq]
    apply List.flatten_eq_nil_iff.mpr
    intro l hl
    obtain ⟨c, hc, rfl⟩ := List.mem_map.mp hl
    obtain ⟨e, he⟩ := hall c hc
    simp [client_contribution, fetch_client_data, he]

/-- A client whose `fetch_campaigns` raises a rate-limit error. -/
def rateLimitedClient : ClientModel :=
  { platform_name := "q",
    fetch_campaigns := Except.error "rate limit",
    fetch_ads := fun _ => Except.ok [] }

/-- Witness for `C5_per_client_failure`: a failing client contributes
nothing. -/
theorem C5_witness :
    client_contribution rateLimitedClient = [] :=
  (C5_per_client_failure [rateLimitedClient]).2.1 _
    (List.mem_singleton.mpr rfl) ⟨"rate limit", rfl⟩

/-- C6: when `fetch_ads` raises for the campaign at position `i`, the result
of `_fetch_client_data` still holds one record per fetched campaign, the
record at position `i` is that campaign with an empty ads list, and every
record depends only on its own campaign (so the other campaigns of the same
client are unaffected). -/
theorem C6_per_campaign_failure (client : ClientModel)
    (campaigns : List Campaign) (i : ℕ) (cp : Campaign) (e : String)
    (hfc : client.fetch_campaigns = Except.ok campaigns)
    (hcp : campaigns[i]? = some cp)
    (herr : client.fetch_ads cp.campaign_id = Except.error e) :
    ∃ records : List CampaignRecord,
      fetch_client_data client = Except.ok records ∧
      records.length = campaigns.length ∧
      records[i]? = some (format_campaign client cp) ∧
      (format_campaign client cp).ads = [] ∧
      (format_campaign client cp).campaign_id = cp.campaign_id ∧
      (∀ j : ℕ, records[j]? =
        (campaigns[j]?).map (format_campaign client)) := by
  refine ⟨campaigns.map (format_campaign client), ?_, by simp, ?_, ?_, rfl, ?_⟩
  · simp [fetch_client_data, hfc]
  · rw [List.getElem?_map, hcp]; rfl
  · simp [format_campaign, herr]
  · intro j
    rw [List.getElem?_map]

/-- Concrete campaigns and a client whose `fetch_ads` raises only for
campaign "c1", instantiating `C6_per_campaign_failure`. -/
def wCampaign1 : Campaign :=
  { campaign_id := "c1", name := "C1", impressions := 10, clicks := 1,
    spend := 5 }

def wCampaign2 : Campaign :=
  { campaign_id := "c2", name := "C2", impressions := 20, clicks := 2,
    spend := 7 }

def wClient : ClientModel :=
  { platform_name := "p",
    fetch_campaigns := Except.ok [wCampaign1, wCampaign2],
    fetch_ads := fun cid =>
      if cid = "c1" then Except.error "boom" else Except.ok [] }

/-- Witness for `C6_per_campaign_failure` on `wClient`. -/
theorem C6_witness :
    ∃ records : List CampaignRecord,
      fetch_client_data wClient = Except.ok records ∧
      records.length = ([wCampaign1, wCampaign2] : List Campaign).length ∧
      records[0]? = some (format_campaign wClient wCampaign1) ∧
      (format_campaign wClient wCampaign1).ads = [] ∧
      (format_campaign wClient wCampaign1).campaign_id =
        wCampaign1.campaign_id ∧
      (∀ j : ℕ, records[j]? =
        (([wCampaign1, wCampaign2] : List Campaign)[j]?).map
          (format_campaign wClient)) :=
  C6_per_campaign_failure wClient [wCampaign1, wCampaign2] 0 wCampaign1
    "boom" rfl rfl rfl

end AdsAggregator
